import Mathlib

/-!
Shallow embedding of `src/assets/ldtk_project.rs` from `bevy_ecs_ldtk`:
the LDtk project asset loader. Paths are modelled after Rust `std::path::Path`
semantics (a flag for absoluteness plus a list of components), the fallible
`parent().unwrap()` call is embedded as an `Option`, and the loader's control
flow (tileset pass, feature gating, per-level metadata construction) is
translated function by function. Rust `HashMap` is modelled as an association
list with overwrite-on-insert semantics.
-/

namespace BevyEcsLdtk

/-- Model of a Rust `std::path::Path`: whether the path is absolute, plus its
list of non-empty components. `Path::new("")` is `⟨false, []⟩` and `"/"` is
`⟨true, []⟩`; both have no parent. -/
structure RustPath where
  absolute : Bool
  components : List String
  deriving DecidableEq, Repr

/-- Model of `Path::parent`: drops the final component; `None` when there is no
component to drop (empty or root path). -/
def RustPath.parent (p : RustPath) : Option RustPath :=
  match p.components with
  | [] => none
  | _ :: _ => some ⟨p.absolute, p.components.dropLast⟩

/-- Model of `Path::join` / `PathBuf::push`: an absolute right operand replaces the
left one; otherwise components are appended. -/
def RustPath.join (p q : RustPath) : RustPath :=
  if q.absolute then q else ⟨p.absolute, p.components ++ q.components⟩

/-- Splits a character list on the path separator, accumulating the
current component in reverse. -/
def splitSlashAux (cur : List Char) : List Char → List String
  | [] => [String.mk cur.reverse]
  | c :: rest =>
    if c = '/' then String.mk cur.reverse :: splitSlashAux [] rest
    else splitSlashAux (c :: cur) rest

/-- Model of `Path::new` on a string: absolute iff it starts with the separator;
components are the chunks between separators, dropping empty ones
(repeated separators collapse, as in Rust's `Components`). -/
def parsePath (s : String) : RustPath :=
  ⟨(match s.data with
    | c :: _ => c == '/'
    | [] => false),
    (splitSlashAux [] s.data).filter (fun c => c != "")⟩

/-- Embedding of `fn ldtk_path_to_asset_path(ldtk_path: &Path, rel_path: &str) -> AssetPath`:
`ldtk_path.parent().unwrap().join(Path::new(rel_path)).into()`. The `unwrap`
panics when `ldtk_path` has no parent; the panic is embedded as `none`. -/
def ldtk_path_to_asset_path (ldtk_path : RustPath) (rel_path : String) : Option RustPath :=
  (ldtk_path.parent).map (fun parentDir => parentDir.join (parsePath rel_path))

/-- An asset handle. In the source a `Handle<T>` is allocated by
`load_context.get_handle(asset_path)` deterministically from the asset path,
so a handle is modelled as the asset path itself. -/
abbrev Handle := RustPath

/-- Layer content is never inspected by this loader beyond presence, so a
layer instance is modelled as a unit value. -/
abbrev LayerInstance := Unit

/-- Modelled from the spec: `LevelIndices` (defined outside src/) — the
level's positional indices: optional world index and level index within its
world (§3, "positional indices (world index, level index within world)"). -/
structure LevelIndices where
  world : Option Nat
  level : Nat
  deriving DecidableEq, Repr

/-- The fields of `ldtk::Level` read by this loader: `iid`,
`layer_instances`, `bg_rel_path`, `external_rel_path`. -/
structure Level where
  iid : String
  layer_instances : Option (List LayerInstance)
  bg_rel_path : Option String
  external_rel_path : Option String
  deriving DecidableEq, Repr

/-- The fields of `ldtk::TilesetDefinition` read by this loader: `uid`,
`identifier`, `rel_path`, `embed_atlas` (presence marker). -/
structure TilesetDefinition where
  uid : Int
  identifier : String
  rel_path : Option String
  embed_atlas : Option Unit
  deriving DecidableEq, Repr

/-- The fields of `ldtk::Definitions` read by this loader: the tileset
catalog, plus (modelled from the spec, §4.3 step 3) whether the document
declares any integer-grid layer type. -/
structure Defs where
  tilesets : List TilesetDefinition
  declares_int_grid_layer : Bool
  deriving DecidableEq, Repr

/-- A world: a named group of levels. Only its level list is relevant here. -/
structure World where
  levels : List Level
  deriving DecidableEq, Repr

/-- The fields of `ldtk::LdtkJson` read by this loader: `external_levels`,
`defs`, root `levels`, and `worlds`. -/
structure LdtkJson where
  external_levels : Bool
  defs : Defs
  levels : List Level
  worlds : List World
  deriving DecidableEq, Repr

/-- Modelled from the spec: `RawLevelAccessor::iter_raw_levels_with_indices`
(defined outside src/) — iterates every raw level in document order, tagged
with its positional indices: root levels first (no world index), then each
world's levels (§4.3 step 4, "for each raw level (in document order, tagged
with its positional indices)"). -/
def LdtkJson.iter_raw_levels_with_indices (data : LdtkJson) : List (LevelIndices × Level) :=
  data.levels.enum.map (fun p => (⟨none, p.1⟩, p.2)) ++
    (data.worlds.enum.map (fun w =>
      w.2.levels.enum.map (fun p => (⟨some w.1, p.1⟩, p.2)))).flatten

/-- Total number of levels in the raw document (root levels plus all
worlds' levels). -/
def LdtkJson.level_count (data : LdtkJson) : Nat :=
  data.levels.length + (data.worlds.map (fun w => w.levels.length)).sum

/-- Modelled from the spec: `Definitions::create_int_grid_image` (defined
outside src/) — synthesizes the integer-grid palette image exactly when the
document declares an integer-grid layer type (§4.3 step 3). The image content
is irrelevant to the loader's control flow, so it is a unit value. -/
def Defs.create_int_grid_image (defs : Defs) : Option Unit :=
  if defs.declares_int_grid_layer then some () else none

/-- Embedding of `LevelMetadata`: resolved background-image handle plus positional
indices. -/
structure LevelMetadata where
  bg_image : Option Handle
  indices : LevelIndices
  deriving DecidableEq, Repr

/-- Embedding of `ExternalLevelMetadata`: level metadata augmented with a handle to the
companion external level asset. -/
structure ExternalLevelMetadata where
  metadata : LevelMetadata
  external_handle : Handle
  deriving DecidableEq, Repr

/-- Embedding of `LdtkJsonWithMetadata<L>`: raw json data plus the level-metadata index
keyed by level iid. The Rust `HashMap` is an association list here. -/
structure LdtkJsonWithMetadata (L : Type) where
  json_data : LdtkJson
  level_map : List (String × L)
  deriving DecidableEq, Repr

/-- Embedding of `LdtkProjectData`: the two mutually exclusive shapes of a loaded
project. -/
inductive LdtkProjectData where
  | Standalone : LdtkJsonWithMetadata LevelMetadata → LdtkProjectData
  | Parent : LdtkJsonWithMetadata ExternalLevelMetadata → LdtkProjectData
  deriving DecidableEq, Repr

/-- Whether the project data is the `Parent` (external-levels) variant. -/
def LdtkProjectData.isParent : LdtkProjectData → Bool
  | .Standalone _ => false
  | .Parent _ => true

/-- Whether the project data is the `Standalone` (internal-levels) variant. -/
def LdtkProjectData.isStandalone : LdtkProjectData → Bool
  | .Standalone _ => true
  | .Parent _ => false

/-- Embedding of `LdtkProject`: project data, tileset uid → image handle map, optional
int-grid image handle. -/
structure LdtkProject where
  data : LdtkProjectData
  tileset_map : List (Int × Handle)
  int_grid_image_handle : Option Unit
  deriving DecidableEq, Repr

/-- Embedding of `LdtkProjectLoaderError`: the loader's closed error set. -/
inductive LdtkProjectLoaderError where
  | InternalLevelsDisabled
  | ExternalLevelsDisabled
  | InternalLevelWithNullLayers
  | ExternalLevelWithNullPath
  deriving DecidableEq, Repr

/-- Outcome of a fallible loader step: `panic` embeds a Rust panic
(`parent().unwrap()` on a parentless project path), `error` a returned
`LdtkProjectLoaderError`, `ok` a value. -/
inductive LoadResult (α : Type) where
  | panic : LoadResult α
  | error : LdtkProjectLoaderError → LoadResult α
  | ok : α → LoadResult α
  deriving DecidableEq, Repr

/-- The `internal_levels` / `external_levels` cargo features, modelled as
run-time capability flags (spec §9: "model this as run-time configuration
flags passed into the loader"). -/
structure Features where
  internal_levels : Bool
  external_levels : Bool
  deriving DecidableEq, Repr

/-- The loader's `LoadContext`, restricted to what the code reads from it:
the project file's own path. `get_handle` is the identity on asset paths. -/
structure LoadContext where
  path : RustPath
  deriving DecidableEq, Repr

/-- Embedding of `load_context.get_handle(asset_path)`: deterministic handle per path. -/
def LoadContext.get_handle (_ctx : LoadContext) (asset_path : RustPath) : Handle :=
  asset_path

/-- Rust `HashMap::insert` on the association-list model: overwrite the
value at an existing key in place, otherwise append the new binding. -/
def hmInsert {κ α : Type} [DecidableEq κ] : List (κ × α) → κ → α → List (κ × α)
  | [], k, v => [(k, v)]
  | p :: rest, k, v => if p.1 = k then (k, v) :: rest else p :: hmInsert rest k v

/-- Embedding of `struct LoadLevelMetadataResult<'a, L>`. -/
structure LoadLevelMetadataResult (L : Type) where
  dependent_asset_paths : List RustPath
  level_metadata : L
  deriving DecidableEq, Repr

/-- Embedding of `fn load_level_metadata`: resolve the optional background image (this
resolution can panic), then fail with `InternalLevelWithNullLayers` when
inline layers are expected but absent, else build the metadata with the
background path as the lone dependency (when present). -/
def load_level_metadata (load_context : LoadContext) (level_indices : LevelIndices)
    (level : Level) (expect_level_loaded : Bool) :
    LoadResult (LoadLevelMetadataResult LevelMetadata) :=
  match level.bg_rel_path with
  | some rel_path =>
    match ldtk_path_to_asset_path load_context.path rel_path with
    | none => .panic
    | some asset_path =>
      if expect_level_loaded && level.layer_instances.isNone then
        .error .InternalLevelWithNullLayers
      else
        .ok ⟨[asset_path], ⟨some (load_context.get_handle asset_path), level_indices⟩⟩
  | none =>
    if expect_level_loaded && level.layer_instances.isNone then
      .error .InternalLevelWithNullLayers
    else
      .ok ⟨[], ⟨none, level_indices⟩⟩

/-- Embedding of `fn load_external_level_metadata`: delegate to `load_level_metadata`
with `expect_level_loaded = false`, then require `external_rel_path`
(`ExternalLevelWithNullPath` otherwise), resolve it, and append it to the
dependency list together with its handle. -/
def load_external_level_metadata (load_context : LoadContext)
    (level_indices : LevelIndices) (level : Level) :
    LoadResult (LoadLevelMetadataResult ExternalLevelMetadata) :=
  match load_level_metadata load_context level_indices level false with
  | .panic => .panic
  | .error e => .error e
  | .ok r =>
    match level.external_rel_path with
    | none => .error .ExternalLevelWithNullPath
    | some rel_path =>
      match ldtk_path_to_asset_path load_context.path rel_path with
      | none => .panic
      | some external_level_path =>
        .ok ⟨r.dependent_asset_paths ++ [external_level_path],
          ⟨r.level_metadata, load_context.get_handle external_level_path⟩⟩

/-- A warning logged by the tileset pass (the two `warn!` calls). -/
inductive TilesetWarning where
  | internalIcons
  | nullPath : String → TilesetWarning
  deriving DecidableEq, Repr

/-- Accumulator of the tileset loop: dependency paths, tileset map,
warnings logged so far. -/
structure TilesetAccum where
  deps : List RustPath
  tileset_map : List (Int × Handle)
  warnings : List TilesetWarning
  deriving DecidableEq, Repr

/-- One iteration of the tileset loop in `LdtkProjectLoader::load`: a
tileset with a relative path is resolved, pushed as a dependency and
inserted into the tileset map; otherwise one with `embed_atlas` present is
skipped with the Internal_Icons warning; otherwise it is skipped with the
null-relative-path warning. -/
def processTileset (load_context : LoadContext) (acc : TilesetAccum)
    (tileset : TilesetDefinition) : LoadResult TilesetAccum :=
  match tileset.rel_path with
  | some tileset_path =>
    match ldtk_path_to_asset_path load_context.path tileset_path with
    | none => .panic
    | some asset_path =>
      .ok ⟨acc.deps ++ [asset_path],
        hmInsert acc.tileset_map tileset.uid (load_context.get_handle asset_path),
        acc.warnings⟩
  | none =>
    if tileset.embed_atlas.isSome then
      .ok { acc with warnings := acc.warnings ++ [.internalIcons] }
    else
      .ok { acc with warnings := acc.warnings ++ [.nullPath tileset.identifier] }

/-- The tileset loop of `LdtkProjectLoader::load`, folded over the tileset
catalog. -/
def processTilesets (load_context : LoadContext) :
    List TilesetDefinition → TilesetAccum → LoadResult TilesetAccum
  | [], acc => .ok acc
  | t :: rest, acc =>
    match processTileset load_context acc t with
    | .panic => .panic
    | .error e => .error e
    | .ok acc2 => processTilesets load_context rest acc2

/-- The internal-levels loop of `LdtkProjectLoader::load`: build each
level's metadata with `expect_level_loaded = true`, insert it under the
level's iid, and extend the dependency list; abort on the first failure. -/
def loadLevelsInternal (load_context : LoadContext) :
    List (LevelIndices × Level) → List (String × LevelMetadata) → List RustPath →
    LoadResult (List (String × LevelMetadata) × List RustPath)
  | [], level_map, deps => .ok (level_map, deps)
  | (level_indices, level) :: rest, level_map, deps =>
    match load_level_metadata load_context level_indices level true with
    | .panic => .panic
    | .error e => .error e
    | .ok r =>
      loadLevelsInternal load_context rest
        (hmInsert level_map level.iid r.level_metadata)
        (deps ++ r.dependent_asset_paths)

/-- The external-levels loop of `LdtkProjectLoader::load`: build each
level's external metadata, insert it under the level's iid, and extend the
dependency list; abort on the first failure. -/
def loadLevelsExternal (load_context : LoadContext) :
    List (LevelIndices × Level) → List (String × ExternalLevelMetadata) → List RustPath →
    LoadResult (List (String × ExternalLevelMetadata) × List RustPath)
  | [], level_map, deps => .ok (level_map, deps)
  | (level_indices, level) :: rest, level_map, deps =>
    match load_external_level_metadata load_context level_indices level with
    | .panic => .panic
    | .error e => .error e
    | .ok r =>
      loadLevelsExternal load_context rest
        (hmInsert level_map level.iid r.level_metadata)
        (deps ++ r.dependent_asset_paths)

/-- A successful load: the default asset (the `LdtkProject`) together with
its dependency list, plus the warnings logged along the way. -/
structure LoadSuccess where
  project : LdtkProject
  dependencies : List RustPath
  warnings : List TilesetWarning
  deriving DecidableEq, Repr

/-- Embedding of `LdtkProjectLoader::load` on an already-parsed document: tileset pass,
int-grid image synthesis, then the branch on `external_levels` gated by the
capability flags, assembling the matching `LdtkProjectData` variant and the
aggregated dependency list. -/
def LdtkProjectLoader.load (features : Features) (load_context : LoadContext)
    (data : LdtkJson) : LoadResult LoadSuccess :=
  match processTilesets load_context data.defs.tilesets ⟨[], [], []⟩ with
  | .panic => .panic
  | .error e => .error e
  | .ok tacc =>
    if data.external_levels then
      if features.external_levels then
        match loadLevelsExternal load_context data.iter_raw_levels_with_indices [] [] with
        | .panic => .panic
        | .error e => .error e
        | .ok (level_map, level_deps) =>
          .ok ⟨⟨.Parent ⟨data, level_map⟩, tacc.tileset_map, data.defs.create_int_grid_image⟩,
            tacc.deps ++ level_deps, tacc.warnings⟩
      else
        .error .ExternalLevelsDisabled
    else
      if features.internal_levels then
        match loadLevelsInternal load_context data.iter_raw_levels_with_indices [] [] with
        | .panic => .panic
        | .error e => .error e
        | .ok (level_map, level_deps) =>
          .ok ⟨⟨.Standalone ⟨data, level_map⟩, tacc.tileset_map, data.defs.create_int_grid_image⟩,
            tacc.deps ++ level_deps, tacc.warnings⟩
      else
        .error .InternalLevelsDisabled

/-- The resolved asset path for a relative path, with a default for the
(panicking) parentless case; used to describe dependency lists of loads
that are known to have succeeded, where every attempted resolution did
return a path. -/
def resolveD (load_context : LoadContext) (rel_path : String) : RustPath :=
  (ldtk_path_to_asset_path load_context.path rel_path).getD ⟨false, []⟩

/-- The dependency paths contributed by the tileset pass, in
tileset-definition order: one resolved path per tileset with a relative
path. -/
def tilesetDepPaths (load_context : LoadContext) : List TilesetDefinition → List RustPath
  | [] => []
  | t :: rest =>
    (t.rel_path.map (resolveD load_context)).toList ++ tilesetDepPaths load_context rest

/-- The dependency paths contributed by the internal-levels pass, in level
iteration order: each level's resolved background path, when present. -/
def levelDepPathsInternal (load_context : LoadContext) :
    List (LevelIndices × Level) → List RustPath
  | [] => []
  | pr :: rest =>
    (pr.2.bg_rel_path.map (resolveD load_context)).toList ++
      levelDepPathsInternal load_context rest

/-- The dependency paths contributed by the external-levels pass, in level
iteration order: each level's resolved background path (when present)
immediately followed by its resolved external-level file path. -/
def levelDepPathsExternal (load_context : LoadContext) :
    List (LevelIndices × Level) → List RustPath
  | [] => []
  | pr :: rest =>
    (pr.2.bg_rel_path.map (resolveD load_context)).toList ++
      (pr.2.external_rel_path.map (resolveD load_context)).toList ++
      levelDepPathsExternal load_context rest

/-! ### Helper lemmas -/

theorem ldtk_path_some (p : RustPath) (h : p.components ≠ []) (r : String) :
    ∃ q, ldtk_path_to_asset_path p r = some q := by
  unfold ldtk_path_to_asset_path RustPath.parent
  cases hc : p.components with
  | nil => exact absurd hc h
  | cons a as => exact ⟨_, rfl⟩

theorem resolveD_eq {load_context : LoadContext} {rel_path : String} {q : RustPath}
    (h : ldtk_path_to_asset_path load_context.path rel_path = some q) :
    resolveD load_context rel_path = q := by
  unfold resolveD
  rw [h]
  rfl

theorem hmInsert_append_of_not_mem {κ α : Type} [DecidableEq κ]
    (m : List (κ × α)) (k : κ) (v : α) (h : k ∉ m.map Prod.fst) :
    hmInsert m k v = m ++ [(k, v)] := by
  induction m with
  | nil => rfl
  | cons p rest ih =>
    simp only [List.map_cons, List.mem_cons] at h
    push_neg at h
    unfold hmInsert
    rw [if_neg (fun he => h.1 he.symm), ih h.2]
    rfl

theorem load_level_metadata_ok_deps {load_context : LoadContext}
    {level_indices : LevelIndices} {level : Level} {e : Bool}
    {r : LoadLevelMetadataResult LevelMetadata}
    (h : load_level_metadata load_context level_indices level e = .ok r) :
    r.dependent_asset_paths = (level.bg_rel_path.map (resolveD load_context)).toList := by
  unfold load_level_metadata at h
  split at h
  · rename_i rel_path hb
    split at h
    · simp at h
    · rename_i q hq
      split at h
      · simp at h
      · simp only [LoadResult.ok.injEq] at h
        rw [← h]
        simp [hb, resolveD_eq hq]
  · rename_i hb
    split at h
    · simp at h
    · simp only [LoadResult.ok.injEq] at h
      rw [← h]
      simp [hb]

theorem load_level_metadata_ok_of {load_context : LoadContext}
    {level_indices : LevelIndices} {level : Level} {e : Bool}
    (hctx : load_context.path.components ≠ [])
    (hlay : e = true → level.layer_instances.isSome) :
    ∃ r, load_level_metadata load_context level_indices level e = .ok r := by
  have hcheck : (e && level.layer_instances.isNone) = false := by
    cases e with
    | false => rfl
    | true =>
      have hs := hlay rfl
      cases hl : level.layer_instances with
      | none => rw [hl] at hs; simp at hs
      | some ls => simp [hl]
  unfold load_level_metadata
  split
  · rename_i rel_path hb
    obtain ⟨q, hq⟩ := ldtk_path_some load_context.path hctx rel_path
    simp [hq, hcheck]
  · simp [hcheck]

theorem load_level_metadata_null_layers {load_context : LoadContext}
    {level_indices : LevelIndices} {level : Level}
    (hctx : load_context.path.components ≠ [])
    (hlay : level.layer_instances = none) :
    load_level_metadata load_context level_indices level true =
      .error .InternalLevelWithNullLayers := by
  have hcheck : (true && level.layer_instances.isNone) = true := by
    simp [Option.isNone_iff_eq_none, hlay]
  unfold load_level_metadata
  split
  · rename_i rel_path hb
    obtain ⟨q, hq⟩ := ldtk_path_some load_context.path hctx rel_path
    simp [hq, hcheck]
  · simp [hcheck]

theorem load_external_level_metadata_ok_deps {load_context : LoadContext}
    {level_indices : LevelIndices} {level : Level}
    {r : LoadLevelMetadataResult ExternalLevelMetadata}
    (h : load_external_level_metadata load_context level_indices level = .ok r) :
    ∃ ext, level.external_rel_path = some ext ∧
      r.dependent_asset_paths =
        (level.bg_rel_path.map (resolveD load_context)).toList ++
          [resolveD load_context ext] := by
  unfold load_external_level_metadata at h
  split at h
  · simp at h
  · simp at h
  · rename_i r0 hm
    split at h
    · simp at h
    · rename_i ext he
      split at h
      · simp at h
      · rename_i q hq
        simp only [LoadResult.ok.injEq] at h
        exact ⟨ext, he, by
          rw [← h]
          simp [load_level_metadata_ok_deps hm, resolveD_eq hq]⟩

theorem load_external_level_metadata_ok_of {load_context : LoadContext}
    {level_indices : LevelIndices} {level : Level}
    (hctx : load_context.path.components ≠ [])
    (hext : level.external_rel_path.isSome) :
    ∃ r, load_external_level_metadata load_context level_indices level = .ok r := by
  obtain ⟨r0, hm⟩ :=
    @load_level_metadata_ok_of load_context level_indices level false hctx (by simp)
  obtain ⟨ext, he⟩ := Option.isSome_iff_exists.mp hext
  obtain ⟨q, hq⟩ := ldtk_path_some load_context.path hctx ext
  unfold load_external_level_metadata
  rw [hm]
  simp [he, hq]

theorem load_external_level_metadata_null_path {load_context : LoadContext}
    {level_indices : LevelIndices} {level : Level}
    (hctx : load_context.path.components ≠ [])
    (hext : level.external_rel_path = none) :
    load_external_level_metadata load_context level_indices level =
      .error .ExternalLevelWithNullPath := by
  obtain ⟨r0, hm⟩ :=
    @load_level_metadata_ok_of load_context level_indices level false hctx (by simp)
  unfold load_external_level_metadata
  rw [hm]
  simp [hext]

theorem processTileset_ok_of {load_context : LoadContext}
    (hctx : load_context.path.components ≠ [])
    (acc : TilesetAccum) (t : TilesetDefinition) :
    ∃ acc2, processTileset load_context acc t = .ok acc2 := by
  unfold processTileset
  split
  · rename_i tileset_path hp
    obtain ⟨q, hq⟩ := ldtk_path_some load_context.path hctx tileset_path
    simp [hq]
  · split
    · exact ⟨_, rfl⟩
    · exact ⟨_, rfl⟩

theorem processTileset_ok_deps {load_context : LoadContext}
    {acc acc2 : TilesetAccum} {t : TilesetDefinition}
    (h : processTileset load_context acc t = .ok acc2) :
    acc2.deps = acc.deps ++ (t.rel_path.map (resolveD load_context)).toList := by
  unfold processTileset at h
  split at h
  · rename_i tileset_path hp
    split at h
    · simp at h
    · rename_i q hq
      simp only [LoadResult.ok.injEq] at h
      rw [← h]
      simp [hp, resolveD_eq hq]
  · rename_i hp
    split at h <;>
      (simp only [LoadResult.ok.injEq] at h; rw [← h]; simp [hp])

theorem processTilesets_ok_of {load_context : LoadContext}
    (hctx : load_context.path.components ≠ []) :
    ∀ (ts : List TilesetDefinition) (acc : TilesetAccum),
      ∃ acc2, processTilesets load_context ts acc = .ok acc2 := by
  intro ts
  induction ts with
  | nil => exact fun acc => ⟨acc, rfl⟩
  | cons t rest ih =>
    intro acc
    obtain ⟨acc1, h1⟩ := processTileset_ok_of hctx acc t
    obtain ⟨acc2, h2⟩ := ih acc1
    unfold processTilesets
    rw [h1]
    exact ⟨acc2, h2⟩

theorem processTilesets_ok_deps {load_context : LoadContext}
    {ts : List TilesetDefinition} {acc acc2 : TilesetAccum}
    (h : processTilesets load_context ts acc = .ok acc2) :
    acc2.deps = acc.deps ++ tilesetDepPaths load_context ts := by
  induction ts generalizing acc with
  | nil =>
    unfold processTilesets at h
    simp only [LoadResult.ok.injEq] at h
    simp [← h, tilesetDepPaths]
  | cons t rest ih =>
    unfold processTilesets at h
    split at h
    · simp at h
    · simp at h
    · rename_i acc1 h1
      rw [ih h, processTileset_ok_deps h1, tilesetDepPaths]
      simp

theorem loadLevelsInternal_ok_of {load_context : LoadContext}
    {pairs : List (LevelIndices × Level)}
    (hctx : load_context.path.components ≠ [])
    (hlay : ∀ pr ∈ pairs, pr.2.layer_instances.isSome) :
    ∀ m0 d0, ∃ md, loadLevelsInternal load_context pairs m0 d0 = .ok md := by
  induction pairs with
  | nil => exact fun m0 d0 => ⟨(m0, d0), rfl⟩
  | cons pr rest ih =>
    intro m0 d0
    obtain ⟨idx, lvl⟩ := pr
    obtain ⟨r, hr⟩ :=
      @load_level_metadata_ok_of load_context idx lvl true hctx
        (fun _ => hlay (idx, lvl) (by simp))
    obtain ⟨md, hmd⟩ :=
      ih (fun pr hpr => hlay pr (List.mem_cons_of_mem _ hpr))
        (hmInsert m0 lvl.iid r.level_metadata) (d0 ++ r.dependent_asset_paths)
    unfold loadLevelsInternal
    rw [hr]
    exact ⟨md, hmd⟩

theorem loadLevelsInternal_ok_keys {load_context : LoadContext}
    {pairs : List (LevelIndices × Level)}
    {m0 : List (String × LevelMetadata)} {d0 : List RustPath}
    {m : List (String × LevelMetadata)} {d : List RustPath}
    (h : loadLevelsInternal load_context pairs m0 d0 = .ok (m, d))
    (hdisj : ∀ pr ∈ pairs, pr.2.iid ∉ m0.map Prod.fst)
    (hnodup : (pairs.map (fun pr => pr.2.iid)).Nodup) :
    m.map Prod.fst = m0.map Prod.fst ++ pairs.map (fun pr => pr.2.iid) := by
  induction pairs generalizing m0 d0 with
  | nil =>
    unfold loadLevelsInternal at h
    simp only [LoadResult.ok.injEq, Prod.mk.injEq] at h
    simp [← h.1]
  | cons pr rest ih =>
    obtain ⟨idx, lvl⟩ := pr
    unfold loadLevelsInternal at h
    split at h
    · simp at h
    · simp at h
    · rename_i r hr
      simp only [List.map_cons, List.nodup_cons] at hnodup
      have hini : lvl.iid ∉ m0.map Prod.fst := hdisj (idx, lvl) (by simp)
      have hm0' :
          (hmInsert m0 lvl.iid r.level_metadata).map Prod.fst =
            m0.map Prod.fst ++ [lvl.iid] := by
        rw [hmInsert_append_of_not_mem m0 lvl.iid r.level_metadata hini]
        simp
      have hdisj' : ∀ pr ∈ rest,
          pr.2.iid ∉ (hmInsert m0 lvl.iid r.level_metadata).map Prod.fst := by
        intro pr hpr
        rw [hm0']
        simp only [List.mem_append, List.mem_singleton]
        rintro (hin | heq)
        · exact hdisj pr (List.mem_cons_of_mem _ hpr) hin
        · exact hnodup.1 (heq ▸ List.mem_map_of_mem (fun pr => pr.2.iid) hpr)
      rw [ih h hdisj' hnodup.2, hm0']
      simp

theorem loadLevelsInternal_ok_deps {load_context : LoadContext}
    {pairs : List (LevelIndices × Level)}
    {m0 : List (String × LevelMetadata)} {d0 : List RustPath}
    {m : List (String × LevelMetadata)} {d : List RustPath}
    (h : loadLevelsInternal load_context pairs m0 d0 = .ok (m, d)) :
    d = d0 ++ levelDepPathsInternal load_context pairs := by
  induction pairs generalizing m0 d0 with
  | nil =>
    unfold loadLevelsInternal at h
    simp only [LoadResult.ok.injEq, Prod.mk.injEq] at h
    simp [← h.2, levelDepPathsInternal]
  | cons pr rest ih =>
    obtain ⟨idx, lvl⟩ := pr
    unfold loadLevelsInternal at h
    split at h
    · simp at h
    · simp at h
    · rename_i r hr
      rw [ih h, load_level_metadata_ok_deps hr, levelDepPathsInternal]
      simp

theorem loadLevelsInternal_null_layers {load_context : LoadContext}
    {pairs : List (LevelIndices × Level)}
    (hctx : load_context.path.components ≠ [])
    (hbad : ∃ pr ∈ pairs, pr.2.layer_instances = none) :
    ∀ m0 d0, loadLevelsInternal load_context pairs m0 d0 =
      .error .InternalLevelWithNullLayers := by
  induction pairs with
  | nil => simp at hbad
  | cons pr rest ih =>
    intro m0 d0
    obtain ⟨idx, lvl⟩ := pr
    cases hl : lvl.layer_instances with
    | none =>
      unfold loadLevelsInternal
      rw [load_level_metadata_null_layers hctx hl]
    | some ls =>
      obtain ⟨r, hr⟩ :=
        @load_level_metadata_ok_of load_context idx lvl true hctx
          (fun _ => by simp [hl])
      unfold loadLevelsInternal
      rw [hr]
      obtain ⟨bad, hmem, hbadl⟩ := hbad
      rcases List.mem_cons.mp hmem with heq | hmem'
      · rw [heq] at hbadl
        rw [hbadl] at hl
        exact absurd hl (by simp)
      · exact ih ⟨bad, hmem', hbadl⟩ _ _

theorem loadLevelsExternal_ok_deps {load_context : LoadContext}
    {pairs : List (LevelIndices × Level)}
    {m0 : List (String × ExternalLevelMetadata)} {d0 : List RustPath}
    {m : List (String × ExternalLevelMetadata)} {d : List RustPath}
    (h : loadLevelsExternal load_context pairs m0 d0 = .ok (m, d)) :
    d = d0 ++ levelDepPathsExternal load_context pairs := by
  induction pairs generalizing m0 d0 with
  | nil =>
    unfold loadLevelsExternal at h
    simp only [LoadResult.ok.injEq, Prod.mk.injEq] at h
    simp [← h.2, levelDepPathsExternal]
  | cons pr rest ih =>
    obtain ⟨idx, lvl⟩ := pr
    unfold loadLevelsExternal at h
    split at h
    · simp at h
    · simp at h
    · rename_i r hr
      obtain ⟨ext, he, hdeps⟩ := load_external_level_metadata_ok_deps hr
      rw [ih h, hdeps, levelDepPathsExternal, he]
      simp

theorem loadLevelsExternal_null_path {load_context : LoadContext}
    {pairs : List (LevelIndices × Level)}
    (hctx : load_context.path.components ≠ [])
    (hbad : ∃ pr ∈ pairs, pr.2.external_rel_path = none) :
    ∀ m0 d0, loadLevelsExternal load_context pairs m0 d0 =
      .error .ExternalLevelWithNullPath := by
  induction pairs with
  | nil => simp at hbad
  | cons pr rest ih =>
    intro m0 d0
    obtain ⟨idx, lvl⟩ := pr
    cases he : lvl.external_rel_path with
    | none =>
      unfold loadLevelsExternal
      rw [load_external_level_metadata_null_path hctx he]
    | some ext =>
      obtain ⟨r, hr⟩ :=
        @load_external_level_metadata_ok_of load_context idx lvl hctx (by simp [he])
      unfold loadLevelsExternal
      rw [hr]
      obtain ⟨bad, hmem, hbadl⟩ := hbad
      rcases List.mem_cons.mp hmem with heq | hmem'
      · rw [heq] at hbadl
        rw [hbadl] at he
        exact absurd he (by simp)
      · exact ih ⟨bad, hmem', hbadl⟩ _ _

theorem enumFrom_worlds_flatten_length (ws : List World) (k : Nat) :
    (((ws.enumFrom k).map (fun w =>
      (w.2.levels.enumFrom 0).map (fun p => ((⟨some w.1, p.1⟩ : LevelIndices), p.2)))).flatten).length =
    (ws.map (fun w => w.levels.length)).sum := by
  induction ws generalizing k with
  | nil => rfl
  | cons w rest ih =>
    simp only [List.enumFrom_cons, List.map_cons, List.flatten_cons,
      List.length_append, List.length_map, List.enumFrom_length, List.sum_cons, ih]

theorem iter_raw_levels_length (data : LdtkJson) :
    data.iter_raw_levels_with_indices.length = data.level_count := by
  unfold LdtkJson.iter_raw_levels_with_indices LdtkJson.level_count
  simp only [List.enum, List.length_append, List.length_map, List.enumFrom_length,
    enumFrom_worlds_flatten_length]

theorem load_ok_inversion {f : Features} {ctx : LoadContext} {d : LdtkJson}
    {s : LoadSuccess} (h : LdtkProjectLoader.load f ctx d = .ok s) :
    ∃ tacc, processTilesets ctx d.defs.tilesets ⟨[], [], []⟩ = .ok tacc ∧
      ((d.external_levels = true ∧ f.external_levels = true ∧
        ∃ lm ld, loadLevelsExternal ctx d.iter_raw_levels_with_indices [] [] = .ok (lm, ld) ∧
          s = ⟨⟨.Parent ⟨d, lm⟩, tacc.tileset_map, d.defs.create_int_grid_image⟩,
            tacc.deps ++ ld, tacc.warnings⟩) ∨
       (d.external_levels = false ∧ f.internal_levels = true ∧
        ∃ lm ld, loadLevelsInternal ctx d.iter_raw_levels_with_indices [] [] = .ok (lm, ld) ∧
          s = ⟨⟨.Standalone ⟨d, lm⟩, tacc.tileset_map, d.defs.create_int_grid_image⟩,
            tacc.deps ++ ld, tacc.warnings⟩)) := by
  unfold LdtkProjectLoader.load at h
  split at h
  · simp at h
  · simp at h
  · rename_i tacc hpt
    refine ⟨tacc, hpt, ?_⟩
    split at h
    · rename_i hext
      split at h
      · rename_i hfeat
        split at h
        · simp at h
        · simp at h
        · rename_i lm ld hfold
          left
          simp only [LoadResult.ok.injEq] at h
          exact ⟨hext, hfeat, lm, ld, hfold, h.symm⟩
      · simp at h
    · rename_i hext
      split at h
      · rename_i hfeat
        split at h
        · simp at h
        · simp at h
        · rename_i lm ld hfold
          right
          simp only [LoadResult.ok.injEq] at h
          exact ⟨Bool.not_eq_true _ ▸ Bool.of_not_eq_true hext, hfeat, lm, ld, hfold, h.symm⟩
      · simp at h

theorem load_internal_forward {f : Features} {ctx : LoadContext} {d : LdtkJson}
    {tacc : TilesetAccum} {lm : List (String × LevelMetadata)} {ld : List RustPath}
    (hx : d.external_levels = false) (hfeat : f.internal_levels = true)
    (hpt : processTilesets ctx d.defs.tilesets ⟨[], [], []⟩ = .ok tacc)
    (hfold : loadLevelsInternal ctx d.iter_raw_levels_with_indices [] [] = .ok (lm, ld)) :
    LdtkProjectLoader.load f ctx d =
      .ok ⟨⟨.Standalone ⟨d, lm⟩, tacc.tileset_map, d.defs.create_int_grid_image⟩,
        tacc.deps ++ ld, tacc.warnings⟩ := by
  unfold LdtkProjectLoader.load
  rw [hpt]
  simp [hx, hfeat, hfold]

theorem load_internal_error {f : Features} {ctx : LoadContext} {d : LdtkJson}
    {tacc : TilesetAccum} {e : LdtkProjectLoaderError}
    (hx : d.external_levels = false) (hfeat : f.internal_levels = true)
    (hpt : processTilesets ctx d.defs.tilesets ⟨[], [], []⟩ = .ok tacc)
    (hfold : loadLevelsInternal ctx d.iter_raw_levels_with_indices [] [] = .error e) :
    LdtkProjectLoader.load f ctx d = .error e := by
  unfold LdtkProjectLoader.load
  rw [hpt]
  simp [hx, hfeat, hfold]

theorem load_external_error {f : Features} {ctx : LoadContext} {d : LdtkJson}
    {tacc : TilesetAccum} {e : LdtkProjectLoaderError}
    (hx : d.external_levels = true) (hfeat : f.external_levels = true)
    (hpt : processTilesets ctx d.defs.tilesets ⟨[], [], []⟩ = .ok tacc)
    (hfold : loadLevelsExternal ctx d.iter_raw_levels_with_indices [] [] = .error e) :
    LdtkProjectLoader.load f ctx d = .error e := by
  unfold LdtkProjectLoader.load
  rw [hpt]
  simp [hx, hfeat, hfold]

/-! ### Concrete fixtures used by witnesses and counterexamples -/

/-- A project file path with a parent directory (`maps/`). -/
def exPath : RustPath := parsePath ("maps/world.ldtk")

/-- Load context anchored at `maps/world.ldtk`. -/
def exCtx : LoadContext := ⟨exPath⟩

/-- Both capabilities enabled. -/
def exFeatures : Features := ⟨true, true⟩

/-- A level with inline layers, a background image and an external path. -/
def exLevelA : Level := ⟨"iid-a", some [], some ("bg/a.png"), some ("world/a.ldtkl")⟩

/-- A level with inline layers, no background image, and an external path. -/
def exLevelB : Level := ⟨"iid-b", some [], none, some ("world/b.ldtkl")⟩

/-- An ordinary tileset with a relative image path. -/
def exTileset : TilesetDefinition := ⟨1, "ts", some ("tiles.png"), none⟩

/-- A well-formed embedded-levels document with two root levels. -/
def exDocInternal : LdtkJson := ⟨false, ⟨[exTileset], true⟩, [exLevelA, exLevelB], []⟩

/-- A well-formed separate-file document with one root level and one world
level. -/
def exDocExternal : LdtkJson := ⟨true, ⟨[], false⟩, [exLevelA], [⟨[exLevelB]⟩]⟩

/-- A level with absent inline layer data. -/
def exLevelNullLayers : Level := ⟨"iid-n", none, none, none⟩

/-- An embedded-levels document whose second level has null layers. -/
def exDocNullLayers : LdtkJson := ⟨false, ⟨[], false⟩, [exLevelA, exLevelNullLayers], []⟩

/-- A level with layers present but no external relative path. -/
def exLevelNullPath : Level := ⟨"iid-p", some [], none, none⟩

/-- A separate-file document whose second level has a null external path. -/
def exDocNullPath : LdtkJson := ⟨true, ⟨[], false⟩, [exLevelA, exLevelNullPath], []⟩

/-- A tileset marked as the built-in icon set that also carries a relative
path. -/
def exIconsTileset : TilesetDefinition := ⟨7, "Icons", some ("icons.png"), some ()⟩

/-- A document whose only tileset is `exIconsTileset`. -/
def exDocIcons : LdtkJson := ⟨false, ⟨[exIconsTileset], false⟩, [], []⟩

/-- A tileset marked as the built-in icon set with a null relative path. -/
def exIconsNoPath : TilesetDefinition := ⟨8, "Icons", none, some ()⟩

/-- The level metadata result for `exLevelA` under `exCtx`. -/
def exMetaA : LoadLevelMetadataResult LevelMetadata :=
  ⟨[⟨false, ["maps", "bg", "a.png"]⟩],
    ⟨some ⟨false, ["maps", "bg", "a.png"]⟩, ⟨none, 0⟩⟩⟩

/-- The external level metadata result for `exLevelA` under `exCtx`. -/
def exExtMetaA : LoadLevelMetadataResult ExternalLevelMetadata :=
  ⟨[⟨false, ["maps", "bg", "a.png"]⟩, ⟨false, ["maps", "world", "a.ldtkl"]⟩],
    ⟨⟨some ⟨false, ["maps", "bg", "a.png"]⟩, ⟨none, 0⟩⟩,
      ⟨false, ["maps", "world", "a.ldtkl"]⟩⟩⟩

/-- The full load result of `exDocInternal` under `exCtx`. -/
def exLoadedInternal : LoadSuccess :=
  ⟨⟨.Standalone ⟨exDocInternal,
      [("iid-a", ⟨some ⟨false, ["maps", "bg", "a.png"]⟩, ⟨none, 0⟩⟩),
       ("iid-b", ⟨none, ⟨none, 1⟩⟩)]⟩,
    [(1, ⟨false, ["maps", "tiles.png"]⟩)], some ()⟩,
    [⟨false, ["maps", "tiles.png"]⟩, ⟨false, ["maps", "bg", "a.png"]⟩], []⟩

/-- The full load result of `exDocExternal` under `exCtx`. -/
def exLoadedExternal : LoadSuccess :=
  ⟨⟨.Parent ⟨exDocExternal,
      [("iid-a", ⟨⟨some ⟨false, ["maps", "bg", "a.png"]⟩, ⟨none, 0⟩⟩,
          ⟨false, ["maps", "world", "a.ldtkl"]⟩⟩),
       ("iid-b", ⟨⟨none, ⟨some 0, 0⟩⟩, ⟨false, ["maps", "world", "b.ldtkl"]⟩⟩)]⟩,
    [], none⟩,
    [⟨false, ["maps", "bg", "a.png"]⟩, ⟨false, ["maps", "world", "a.ldtkl"]⟩,
      ⟨false, ["maps", "world", "b.ldtkl"]⟩], []⟩

/-! ### Claim theorems -/

/-- Claim C1: for every well-formed embedded-level document (distinct level
iids, external-levels flag false, internal-levels capability enabled, all
inline layer data present — and a project path with a parent directory so
that path resolution cannot panic), the load succeeds and produces a
Standalone level-metadata index with exactly one entry per level of the raw
document, every key being the iid of some level in the source. -/
theorem C1_level_index_counts_levels (f : Features) (ctx : LoadContext) (d : LdtkJson)
    (hctx : ctx.path.components ≠ [])
    (hx : d.external_levels = false)
    (hfeat : f.internal_levels = true)
    (hnodup : (d.iter_raw_levels_with_indices.map (fun pr => pr.2.iid)).Nodup)
    (hlay : ∀ pr ∈ d.iter_raw_levels_with_indices, pr.2.layer_instances.isSome) :
    ∃ s meta, LdtkProjectLoader.load f ctx d = .ok s ∧
      s.project.data = .Standalone meta ∧
      meta.level_map.length = d.level_count ∧
      ∀ k ∈ meta.level_map.map Prod.fst,
        ∃ pr ∈ d.iter_raw_levels_with_indices, pr.2.iid = k := by
  obtain ⟨tacc, hpt⟩ := processTilesets_ok_of hctx d.defs.tilesets ⟨[], [], []⟩
  obtain ⟨⟨lm, ld⟩, hfold⟩ := loadLevelsInternal_ok_of hctx hlay [] []
  have hkeys := loadLevelsInternal_ok_keys hfold (by simp) hnodup
  simp only [List.map_nil, List.nil_append] at hkeys
  refine ⟨_, ⟨d, lm⟩, load_internal_forward hx hfeat hpt hfold, rfl, ?_, ?_⟩
  · calc lm.length = (lm.map Prod.fst).length := by simp
      _ = d.iter_raw_levels_with_indices.length := by rw [hkeys]; simp
      _ = d.level_count := iter_raw_levels_length d
  · intro k hk
    rw [hkeys] at hk
    obtain ⟨pr, hpr, hpk⟩ := List.mem_map.mp hk
    exact ⟨pr, hpr, hpk⟩

/-- Claim C1 witness: the two-level embedded document `exDocInternal` loads
into an index with two entries keyed by its level iids. -/
theorem C1_level_index_counts_levels_witness :
    ∃ s meta, LdtkProjectLoader.load exFeatures exCtx exDocInternal = .ok s ∧
      s.project.data = .Standalone meta ∧
      meta.level_map.length = exDocInternal.level_count ∧
      ∀ k ∈ meta.level_map.map Prod.fst,
        ∃ pr ∈ exDocInternal.iter_raw_levels_with_indices, pr.2.iid = k :=
  C1_level_index_counts_levels exFeatures exCtx exDocInternal (by decide) rfl rfl
    (by decide) (by decide)

/-- Claim C2: for every embedded-level document (flag false, internal
capability enabled, project path with a parent directory) in which some
level has `layer_instances = null`, the load fails with
`InternalLevelWithNullLayers`; no project asset is produced (the result is
an error, not an `ok`). -/
theorem C2_null_layers_fails (f : Features) (ctx : LoadContext) (d : LdtkJson)
    (hctx : ctx.path.components ≠ [])
    (hx : d.external_levels = false)
    (hfeat : f.internal_levels = true)
    (hbad : ∃ pr ∈ d.iter_raw_levels_with_indices, pr.2.layer_instances = none) :
    LdtkProjectLoader.load f ctx d = .error .InternalLevelWithNullLayers := by
  obtain ⟨tacc, hpt⟩ := processTilesets_ok_of hctx d.defs.tilesets ⟨[], [], []⟩
  exact load_internal_error hx hfeat hpt (loadLevelsInternal_null_layers hctx hbad [] [])

/-- Claim C2 witness: the embedded document whose second level has null
layers fails with `InternalLevelWithNullLayers`. -/
theorem C2_null_layers_fails_witness :
    LdtkProjectLoader.load exFeatures exCtx exDocNullLayers =
      .error .InternalLevelWithNullLayers :=
  C2_null_layers_fails exFeatures exCtx exDocNullLayers (by decide) rfl rfl (by decide)

/-- Claim C3: for every separate-file document (flag true, external
capability enabled, project path with a parent directory) in which some
level has `external_rel_path = null`, the load fails with
`ExternalLevelWithNullPath`; no project asset is produced. -/
theorem C3_null_external_path_fails (f : Features) (ctx : LoadContext) (d : LdtkJson)
    (hctx : ctx.path.components ≠ [])
    (hx : d.external_levels = true)
    (hfeat : f.external_levels = true)
    (hbad : ∃ pr ∈ d.iter_raw_levels_with_indices, pr.2.external_rel_path = none) :
    LdtkProjectLoader.load f ctx d = .error .ExternalLevelWithNullPath := by
  obtain ⟨tacc, hpt⟩ := processTilesets_ok_of hctx d.defs.tilesets ⟨[], [], []⟩
  exact load_external_error hx hfeat hpt (loadLevelsExternal_null_path hctx hbad [] [])

/-- Claim C3 witness: the separate-file document whose second level has a
null external path fails with `ExternalLevelWithNullPath`. -/
theorem C3_null_external_path_fails_witness :
    LdtkProjectLoader.load exFeatures exCtx exDocNullPath =
      .error .ExternalLevelWithNullPath :=
  C3_null_external_path_fails exFeatures exCtx exDocNullPath (by decide) rfl rfl
    (by decide)

/-- Claim C4: with a project path with a parent directory, a document whose
external-levels flag is true loaded without the external capability fails
with `ExternalLevelsDisabled`, and one whose flag is false loaded without
the internal capability fails with `InternalLevelsDisabled`; in both cases
before any level is processed (the level loops are never entered in these
branches of the loader). -/
theorem C4_capability_gating (f : Features) (ctx : LoadContext) (d : LdtkJson)
    (hctx : ctx.path.components ≠ []) :
    (d.external_levels = true → f.external_levels = false →
      LdtkProjectLoader.load f ctx d = .error .ExternalLevelsDisabled) ∧
    (d.external_levels = false → f.internal_levels = false →
      LdtkProjectLoader.load f ctx d = .error .InternalLevelsDisabled) := by
  obtain ⟨tacc, hpt⟩ := processTilesets_ok_of hctx d.defs.tilesets ⟨[], [], []⟩
  constructor
  · intro hx hf
    unfold LdtkProjectLoader.load
    rw [hpt]
    simp [hx, hf]
  · intro hx hf
    unfold LdtkProjectLoader.load
    rw [hpt]
    simp [hx, hf]

/-- Claim C4 witness: both gating errors at concrete documents. -/
theorem C4_capability_gating_witness :
    LdtkProjectLoader.load ⟨true, false⟩ exCtx exDocExternal =
        .error .ExternalLevelsDisabled ∧
      LdtkProjectLoader.load ⟨false, true⟩ exCtx exDocInternal =
        .error .InternalLevelsDisabled :=
  ⟨(C4_capability_gating ⟨true, false⟩ exCtx exDocExternal (by decide)).1 rfl rfl,
    (C4_capability_gating ⟨false, true⟩ exCtx exDocInternal (by decide)).2 rfl rfl⟩

/-- Claim C5: whenever the project path has a parent directory, the path
resolver returns that parent joined with the relative path; in particular
resolving img/bg.png against levels/world.ldtk yields levels/img/bg.png. -/
theorem C5_resolver_joins_parent :
    (∀ (p : RustPath) (r : String) (par : RustPath), p.parent = some par →
      ldtk_path_to_asset_path p r = some (par.join (parsePath r))) ∧
    ldtk_path_to_asset_path (parsePath ("levels/world.ldtk")) ("img/bg.png") =
      some (parsePath ("levels/img/bg.png")) := by
  constructor
  · intro p r par hp
    unfold ldtk_path_to_asset_path
    rw [hp]
    rfl
  · decide

/-- Claim C5 witness: the general clause applied at a concrete path whose
parent is the directory `a`. -/
theorem C5_resolver_joins_parent_witness :
    ldtk_path_to_asset_path (parsePath ("a/b.ldtk")) ("c.png") =
      some ((⟨false, ["a"]⟩ : RustPath).join (parsePath ("c.png"))) :=
  C5_resolver_joins_parent.1 (parsePath ("a/b.ldtk")) ("c.png") ⟨false, ["a"]⟩
    (by decide)

/-- Claim C6 counterexample: the resolver is not total — on the root
project path, `parent()` is `None` and the Rust code panics on `unwrap`
(embedded as `none`), so "no failure mode" is false. -/
theorem C6_resolver_total_counterexample :
    ldtk_path_to_asset_path ⟨true, []⟩ ("img/bg.png") = none := rfl

/-- Claim C6 (amended): the path resolver is pure and returns a result for
every relative path string whenever the project file path has at least one
component (i.e. has a parent directory); it panics on a parentless (empty
or root) project path. -/
theorem C6_resolver_total_on_parented (p : RustPath) (r : String)
    (h : p.components ≠ []) : (ldtk_path_to_asset_path p r).isSome := by
  obtain ⟨q, hq⟩ := ldtk_path_some p h r
  simp [hq]

/-- Claim C6 witness: the amended totality at a concrete parented path. -/
theorem C6_resolver_total_on_parented_witness :
    (ldtk_path_to_asset_path (parsePath ("maps/w.ldtk")) ("x.png")).isSome :=
  C6_resolver_total_on_parented (parsePath ("maps/w.ldtk")) ("x.png") (by decide)

/-- Claim C7: a successful embedded-level metadata build returns exactly
one dependency when the level has a background image path and zero
otherwise; a successful separate-file build returns exactly two
dependencies when the level has a background image path and one
otherwise. -/
theorem C7_dependency_counts :
    (∀ (ctx : LoadContext) (idx : LevelIndices) (lvl : Level) (e : Bool)
      (r : LoadLevelMetadataResult LevelMetadata),
      load_level_metadata ctx idx lvl e = .ok r →
      r.dependent_asset_paths.length = if lvl.bg_rel_path.isSome then 1 else 0) ∧
    (∀ (ctx : LoadContext) (idx : LevelIndices) (lvl : Level)
      (r : LoadLevelMetadataResult ExternalLevelMetadata),
      load_external_level_metadata ctx idx lvl = .ok r →
      r.dependent_asset_paths.length = if lvl.bg_rel_path.isSome then 2 else 1) := by
  constructor
  · intro ctx idx lvl e r h
    rw [load_level_metadata_ok_deps h]
    cases lvl.bg_rel_path <;> simp
  · intro ctx idx lvl r h
    obtain ⟨ext, he, hdeps⟩ := load_external_level_metadata_ok_deps h
    rw [hdeps]
    cases lvl.bg_rel_path <;> simp

/-- Claim C7 witness: the counts at `exLevelA` (which has a background
image), in both builds. -/
theorem C7_dependency_counts_witness :
    (load_level_metadata exCtx ⟨none, 0⟩ exLevelA true = .ok exMetaA ∧
      exMetaA.dependent_asset_paths.length =
        if exLevelA.bg_rel_path.isSome then 1 else 0) ∧
    (load_external_level_metadata exCtx ⟨none, 0⟩ exLevelA = .ok exExtMetaA ∧
      exExtMetaA.dependent_asset_paths.length =
        if exLevelA.bg_rel_path.isSome then 2 else 1) :=
  ⟨⟨by decide, C7_dependency_counts.1 exCtx ⟨none, 0⟩ exLevelA true exMetaA (by decide)⟩,
    ⟨by decide, C7_dependency_counts.2 exCtx ⟨none, 0⟩ exLevelA exExtMetaA (by decide)⟩⟩

/-- Claim C8 counterexample: a tileset marked as the built-in icon set
(`embed_atlas` present) that also has a relative path IS loaded — the load
of `exDocIcons` puts uid 7 into the tileset map, records its image as a
dependency, and logs no warning, because the code checks `rel_path`
first. -/
theorem C8_embed_atlas_skipped_counterexample :
    exIconsTileset.embed_atlas.isSome = true ∧
    LdtkProjectLoader.load exFeatures exCtx exDocIcons =
      .ok ⟨⟨.Standalone ⟨exDocIcons, []⟩, [(7, ⟨false, ["maps", "icons.png"]⟩)], none⟩,
        [⟨false, ["maps", "icons.png"]⟩], []⟩ := by decide

/-- Claim C8 (amended): a tileset marked as the built-in icon set whose
relative path is null is never loaded: the tileset-loop step leaves the
tileset map and the dependency list unchanged and records the
Internal_Icons warning. A tileset with `embed_atlas` present but a non-null
relative path is loaded like any other tileset. -/
theorem C8_embed_atlas_null_path_skipped (ctx : LoadContext) (acc : TilesetAccum)
    (t : TilesetDefinition) (hp : t.rel_path = none) (he : t.embed_atlas.isSome) :
    processTileset ctx acc t =
      .ok ⟨acc.deps, acc.tileset_map, acc.warnings ++ [.internalIcons]⟩ := by
  unfold processTileset
  rw [hp]
  simp [he]

/-- Claim C8 witness: the amended behavior at a concrete icon tileset with
a null path. -/
theorem C8_embed_atlas_null_path_skipped_witness :
    processTileset exCtx ⟨[], [], []⟩ exIconsNoPath =
      .ok ⟨[], [], [.internalIcons]⟩ :=
  C8_embed_atlas_null_path_skipped exCtx ⟨[], [], []⟩ exIconsNoPath rfl (by decide)

/-- Claim C9: every successful load constructs exactly one project-data
variant, determined entirely by the document's external-levels flag:
Parent iff the flag is true, Standalone iff it is false. -/
theorem C9_variant_matches_flag (f : Features) (ctx : LoadContext) (d : LdtkJson)
    (s : LoadSuccess) (h : LdtkProjectLoader.load f ctx d = .ok s) :
    s.project.data.isParent = d.external_levels ∧
      s.project.data.isStandalone = !d.external_levels := by
  obtain ⟨tacc, hpt, hcase⟩ := load_ok_inversion h
  rcases hcase with ⟨hx, hf, lm, ld, hfold, hs⟩ | ⟨hx, hf, lm, ld, hfold, hs⟩ <;>
    subst hs <;>
    simp [LdtkProjectData.isParent, LdtkProjectData.isStandalone, hx]

/-- Claim C9 witness: the Parent variant at the concrete separate-file
document. -/
theorem C9_variant_matches_flag_witness :
    exLoadedExternal.project.data.isParent = exDocExternal.external_levels ∧
      exLoadedExternal.project.data.isStandalone = !exDocExternal.external_levels :=
  C9_variant_matches_flag exFeatures exCtx exDocExternal exLoadedExternal (by decide)

/-- Claim C10: the dependency list of every successful load is exactly the
tileset image paths in tileset-definition order, followed by the
level-derived paths in level iteration order, where each separate-file
level contributes its background path (if any) immediately followed by its
external-level file path, and each embedded level contributes its
background path (if any). -/
theorem C10_dependency_order (f : Features) (ctx : LoadContext) (d : LdtkJson)
    (s : LoadSuccess) (h : LdtkProjectLoader.load f ctx d = .ok s) :
    s.dependencies = tilesetDepPaths ctx d.defs.tilesets ++
      (if d.external_levels then
        levelDepPathsExternal ctx d.iter_raw_levels_with_indices
      else
        levelDepPathsInternal ctx d.iter_raw_levels_with_indices) := by
  obtain ⟨tacc, hpt, hcase⟩ := load_ok_inversion h
  have htdeps := processTilesets_ok_deps hpt
  rcases hcase with ⟨hx, hf, lm, ld, hfold, hs⟩ | ⟨hx, hf, lm, ld, hfold, hs⟩
  · have hldeps := loadLevelsExternal_ok_deps hfold
    subst hs
    simp [hx, htdeps, hldeps]
  · have hldeps := loadLevelsInternal_ok_deps hfold
    subst hs
    simp [hx, htdeps, hldeps]

/-- Claim C10 witness: the dependency order at the concrete separate-file
document (background path immediately before external path, per level). -/
theorem C10_dependency_order_witness :
    exLoadedExternal.dependencies =
      tilesetDepPaths exCtx exDocExternal.defs.tilesets ++
        (if exDocExternal.external_levels then
          levelDepPathsExternal exCtx exDocExternal.iter_raw_levels_with_indices
        else
          levelDepPathsInternal exCtx exDocExternal.iter_raw_levels_with_indices) :=
  C10_dependency_order exFeatures exCtx exDocExternal exLoadedExternal (by decide)

end BevyEcsLdtk
